import Mathlib

/-!
Verification of the storage/replica subsystem of a Taskwarrior-style task
library (Rust).  The Rust sources under `src/storage/` and `src/task/` are
shallowly embedded below: pure Rust functions become Lean functions, the
replica actor's command handlers become functions on an explicit store
state, and the external TaskChampion embedded database (an out-of-scope
collaborator per the specification) is modelled from the specification's
description of its field-map data model and transactional commit.

Conventions of the embedding:
* `Uuid` is abstracted to `Nat` (an opaque identity with decidable
  equality); its textual form is `toString`.
* `chrono::DateTime<Utc>` is abstracted to `Int` (seconds since the epoch);
  sub-second precision is dropped.
* Rust `HashSet` fields are modelled as duplicate-free lists, `HashMap`s as
  association lists with duplicate-free keys; set equality of `HashSet` is
  the decidable `hsetEq` below.
* `f64` payloads that the code only ever converts to/from text are carried
  as their source text (`JsonValue.num`, `UdaValue.number`).
-/

namespace TWLib

abbrev Uuid := Nat

abbrev DateTime := Int

/-- `TaskStatus` from `src/task/model.rs` (derive `Debug`, serde
`rename_all = "lowercase"`). -/
inductive TaskStatus
  | pending
  | completed
  | deleted
  | waiting
  | recurring
deriving DecidableEq, Repr

/-- Rust `format!("\x7b:?\x7d", status)` for the derived `Debug` instance:
the variant name as declared, capitalised. -/
def TaskStatus.debugStr : TaskStatus → String
  | .pending => "Pending"
  | .completed => "Completed"
  | .deleted => "Deleted"
  | .waiting => "Waiting"
  | .recurring => "Recurring"

/-- serde serialization of `TaskStatus` (`rename_all = "lowercase"`). -/
def TaskStatus.serdeStr : TaskStatus → String
  | .pending => "pending"
  | .completed => "completed"
  | .deleted => "deleted"
  | .waiting => "waiting"
  | .recurring => "recurring"

/-- `Priority` from `src/task/model.rs`; declaration order `Low, Medium,
High` gives the derived ordering used by sorting. -/
inductive Priority
  | low
  | medium
  | high
deriving DecidableEq, Repr

/-- serde representation of `Priority` (`rename` attributes). -/
def Priority.serdeStr : Priority → String
  | .low => "L"
  | .medium => "M"
  | .high => "H"

def Priority.toNat : Priority → Nat
  | .low => 0
  | .medium => 1
  | .high => 2

/-- `UdaValue` from `src/task/model.rs`.  The `Number` payload (Rust `f64`)
is abstracted to the text it was parsed from. -/
inductive UdaValue
  | str (s : String)
  | number (raw : String)
  | date (d : DateTime)
deriving DecidableEq, Repr

/-- `Annotation` from `src/task/annotation.rs` (renamed `Annot` here). -/
structure Annot where
  entry : DateTime
  description : String
deriving DecidableEq, Repr

/-- `RecurrencePattern` from `src/task/recurrence.rs`. -/
structure RecurrencePattern where
  pattern : String
  periodic : Bool
deriving DecidableEq, Repr

/-- `RecurrencePattern::is_valid_pattern`. -/
def recurIsValidPattern (pattern : String) : Bool :=
  pattern == "daily" || pattern == "weekly" || pattern == "monthly" ||
  pattern == "quarterly" || pattern == "yearly" || pattern == "weekdays" ||
  pattern == "weekends" || pattern.endsWith "d" || pattern.endsWith "w" ||
  pattern.endsWith "m" || pattern.endsWith "q" || pattern.endsWith "y"

/-- `RecurrencePattern::parse`; errors are collapsed to `none`. -/
def recurParse (s : String) : Option RecurrencePattern :=
  if s.isEmpty then none
  else
    let (pattern, periodic) :=
      if s.startsWith "P" then (s.drop 1, true) else (s, false)
    if recurIsValidPattern pattern then some ⟨pattern, periodic⟩ else none

/-- The `Task` struct from `src/task/model.rs`.  Field names follow the
source (`end` is a Lean keyword, hence `end_`). -/
structure Task where
  id : Uuid
  displayId : Option Nat
  description : String
  status : TaskStatus
  entry : DateTime
  modified : Option DateTime
  due : Option DateTime
  scheduled : Option DateTime
  wait : Option DateTime
  end_ : Option DateTime
  priority : Option Priority
  project : Option String
  tags : List String
  annots : List Annot
  depends : List Uuid
  urgency : Int
  udas : List (String × UdaValue)
  recur : Option RecurrencePattern
  parent : Option Uuid
  mask : Option String
  active : Bool
  start : Option DateTime
deriving DecidableEq, Repr

/-- `Task::new` from `src/task/model.rs`.  The fresh random uuid and the
wall-clock `Utc::now()` are passed explicitly. -/
def Task.new (id : Uuid) (now : DateTime) (description : String) : Task where
  id := id
  displayId := none
  description := description
  status := .pending
  entry := now
  modified := none
  due := none
  scheduled := none
  wait := none
  end_ := none
  priority := none
  project := none
  tags := []
  annots := []
  depends := []
  urgency := 0
  udas := []
  recur := none
  parent := none
  mask := none
  active := false
  start := none

/-- Decidable rendering of Rust `HashSet` equality on the list model:
mutual containment (the lists are duplicate-free in every reachable
state, mirroring the `HashSet` invariant). -/
def hsetEq [BEq α] (a b : List α) : Bool :=
  a.all (fun x => b.contains x) && b.all (fun x => a.contains x)

/-- `serde_json::Value`.  Numbers are carried as their decimal text (the
code only ever applies `n.to_string()` to them). -/
inductive JsonValue
  | null
  | bool (b : Bool)
  | num (raw : String)
  | str (s : String)
  | arr (items : List JsonValue)
  | obj (fields : List (String × JsonValue))

/-- The `Operation` enum from `src/storage/operation_batch.rs`. -/
inductive Operation
  | create (uuid : Uuid) (data : JsonValue)
  | update (uuid : Uuid) (key : String) (old new : JsonValue)
  | setField (uuid : Uuid) (key value : String)
  | unsetField (uuid : Uuid) (key : String)
  | addTag (uuid : Uuid) (tag : String)
  | removeTag (uuid : Uuid) (tag : String)
  | addAnnot (uuid : Uuid) (entry : DateTime) (description : String)
  | addDependency (uuid : Uuid) (dependsOn : Uuid)
  | removeDependency (uuid : Uuid) (dependsOn : Uuid)
  | delete (uuid : Uuid)
  | undoPoint

/-! ### Calendar and text helpers

`chrono` date-time values are abstracted to epoch seconds; formatting and
RFC 3339 parsing use the standard civil-calendar conversion. -/

/-- Days since 1970-01-01 of the civil date `y-m-d` (Howard Hinnant's
`days_from_civil`, as used by every civil-calendar implementation). -/
def daysFromCivil (y : Int) (m d : Nat) : Int :=
  let y' : Int := if m ≤ 2 then y - 1 else y
  let era : Int := (if 0 ≤ y' then y' else y' - 399) / 400
  let yoe : Int := y' - era * 400
  let mp : Int := if 2 < m then (m : Int) - 3 else (m : Int) + 9
  let doy : Int := (153 * mp + 2) / 5 + (d : Int) - 1
  let doe : Int := yoe * 365 + yoe / 4 - yoe / 100 + doy
  era * 146097 + doe - 719468

/-- Civil date `(y, m, d)` of a day count since 1970-01-01 (Hinnant's
`civil_from_days`). -/
def civilFromDays (z0 : Int) : Int × Nat × Nat :=
  let z := z0 + 719468
  let era : Int := (if 0 ≤ z then z else z - 146096) / 146097
  let doe : Int := z - era * 146097
  let yoe : Int := (doe - doe / 1460 + doe / 36524 - doe / 146096) / 365
  let y : Int := yoe + era * 400
  let doy : Int := doe - (365 * yoe + yoe / 4 - yoe / 100)
  let mp : Int := (5 * doy + 2) / 153
  let d : Int := doy - (153 * mp + 2) / 5 + 1
  let m : Int := if mp < 10 then mp + 3 else mp - 9
  (if m ≤ 2 then y + 1 else y, m.toNat, d.toNat)

def isLeapYear (y : Int) : Bool :=
  y % 4 == 0 && (y % 100 != 0 || y % 400 == 0)

def daysInMonth (y : Int) (m : Nat) : Nat :=
  match m with
  | 1 => 31 | 2 => if isLeapYear y then 29 else 28
  | 3 => 31 | 4 => 30 | 5 => 31 | 6 => 30 | 7 => 31
  | 8 => 31 | 9 => 30 | 10 => 31 | 11 => 30 | 12 => 31
  | _ => 0

def padNum (width n : Nat) : String :=
  let s := toString n
  String.mk (List.replicate (width - s.length) '0') ++ s

/-- Rendering of a `chrono::DateTime<Utc>` as serde serializes it
(RFC 3339 with a `Z` suffix; the sub-second part is dropped by the
epoch-second abstraction). -/
def formatRfc3339 (t : DateTime) : String :=
  let days : Int := t / 86400 - (if t % 86400 < 0 then 1 else 0)
  let secs : Int := t - days * 86400
  let (y, m, d) := civilFromDays days
  let h := (secs / 3600).toNat
  let mi := ((secs % 3600) / 60).toNat
  let s := (secs % 60).toNat
  padNum 4 y.toNat ++ "-" ++ padNum 2 m ++ "-" ++ padNum 2 d ++ "T" ++
    padNum 2 h ++ ":" ++ padNum 2 mi ++ ":" ++ padNum 2 s ++ "Z"

def digitsToNat (cs : List Char) : Nat :=
  cs.foldl (fun a c => a * 10 + (c.toNat - 48)) 0

/-- Consume exactly `n` decimal digits. -/
def takeDigits (n : Nat) (cs : List Char) : Option (Nat × List Char) :=
  let ds := cs.take n
  if ds.length = n && ds.all Char.isDigit then
    some (digitsToNat ds, cs.drop n)
  else none

def expectChar (c : Char) : List Char → Option (List Char)
  | x :: rest => if x = c then some rest else none
  | [] => none

/-- Date part `YYYY-MM-DD` of the RFC 3339 grammar. -/
def parseRfcDate (cs : List Char) : Option (Nat × Nat × Nat × List Char) :=
  match takeDigits 4 cs with
  | none => none
  | some (y, cs) =>
    match expectChar '-' cs with
    | none => none
    | some cs =>
      match takeDigits 2 cs with
      | none => none
      | some (m, cs) =>
        match expectChar '-' cs with
        | none => none
        | some cs =>
          match takeDigits 2 cs with
          | none => none
          | some (d, cs) => some (y, m, d, cs)

/-- Time part `hh:mm:ss` of the RFC 3339 grammar. -/
def parseRfcTime (cs : List Char) : Option (Nat × Nat × Nat × List Char) :=
  match takeDigits 2 cs with
  | none => none
  | some (h, cs) =>
    match expectChar ':' cs with
    | none => none
    | some cs =>
      match takeDigits 2 cs with
      | none => none
      | some (mi, cs) =>
        match expectChar ':' cs with
        | none => none
        | some cs =>
          match takeDigits 2 cs with
          | none => none
          | some (s, cs) => some (h, mi, s, cs)

/-- Optional fractional-second part `.digits`. -/
def skipRfcFrac (cs : List Char) : Option (List Char) :=
  match cs with
  | '.' :: rest =>
    let frac := rest.takeWhile Char.isDigit
    if frac.isEmpty then none else some (rest.drop frac.length)
  | rest => some rest

/-- Offset part `Z | ±hh:mm`, returned in seconds. -/
def parseRfcOffset (cs : List Char) : Option (Int × List Char) :=
  match cs with
  | 'Z' :: rest => some (0, rest)
  | 'z' :: rest => some (0, rest)
  | sign :: rest =>
    if sign = '+' || sign = '-' then
      match takeDigits 2 rest with
      | none => none
      | some (oh, rest) =>
        match expectChar ':' rest with
        | none => none
        | some rest =>
          match takeDigits 2 rest with
          | none => none
          | some (om, rest) =>
            if oh ≤ 23 && om ≤ 59 then
              let mag : Int := (oh : Int) * 3600 + (om : Int) * 60
              some (if sign = '+' then mag else -mag, rest)
            else none
    else none
  | [] => none

/-- Embedding of `chrono::DateTime::parse_from_rfc3339` followed by
`with_timezone(&Utc)`: full RFC 3339 grammar
`YYYY-MM-DDThh:mm:ss[.frac](Z|±hh:mm)` with calendar validation, yielding
the UTC instant in epoch seconds (fractional seconds dropped). -/
def parseRfc3339 (str : String) : Option DateTime :=
  match parseRfcDate str.data with
  | none => none
  | some (y, m, d, cs) =>
    match cs with
    | 'T' :: cs | 't' :: cs =>
      match parseRfcTime cs with
      | none => none
      | some (h, mi, s, cs) =>
        match skipRfcFrac cs with
        | none => none
        | some cs =>
          match parseRfcOffset cs with
          | none => none
          | some (offSecs, cs) =>
            if cs.isEmpty && 1 ≤ m && m ≤ 12 && 1 ≤ d &&
                d ≤ daysInMonth (y : Int) m && h ≤ 23 && mi ≤ 59 && s ≤ 60 then
              some (daysFromCivil (y : Int) m d * 86400 + (h : Int) * 3600 +
                (mi : Int) * 60 + (s : Int) - offSecs)
            else none
    | _ => none

/-- Recogniser for Rust's `str::parse::<f64>` grammar:
`Sign? (inf | infinity | nan | Digits .? Digits? Exp? | . Digits Exp?)`,
the keyword part case-insensitive. -/
def parsesF64 (str : String) : Bool :=
  let cs := match str.data with
    | '+' :: t => t
    | '-' :: t => t
    | t => t
  let low := cs.map Char.toLower
  if low = "inf".data || low = "infinity".data || low = "nan".data then
    true
  else
    let expOk : List Char → Bool := fun rest =>
      match rest with
      | [] => true
      | e :: r =>
        if e = 'e' || e = 'E' then
          let r := match r with
            | '+' :: t => t
            | '-' :: t => t
            | t => t
          let ds := r.takeWhile Char.isDigit
          !ds.isEmpty && (r.drop ds.length).isEmpty
        else false
    let ds := cs.takeWhile Char.isDigit
    let rest := cs.drop ds.length
    if ds.isEmpty then
      match rest with
      | '.' :: r2 =>
        let ds2 := r2.takeWhile Char.isDigit
        !ds2.isEmpty && expOk (r2.drop ds2.length)
      | _ => false
    else
      match rest with
      | [] => true
      | '.' :: r2 => expOk (r2.drop (r2.takeWhile Char.isDigit).length)
      | _ => expOk rest

/-- Rust `str::split_whitespace`. -/
def splitWs (s : String) : List String :=
  (s.split Char.isWhitespace).filter (fun p => p ≠ "")

/-- Rust `str::lines`: split on newlines, the final trailing empty segment
and any trailing carriage returns removed. -/
def linesOf (s : String) : List String :=
  let parts := s.splitOn "\n"
  let parts := if parts.getLast? = some "" then parts.dropLast else parts
  parts.map (fun l => if l.endsWith "\r" then l.dropRight 1 else l)

/-- Rust `str::trim_matches(c)`: strip every leading and trailing `c`. -/
def trimMatchesChar (c : Char) (s : String) : String :=
  String.mk (((s.data.dropWhile (· = c)).reverse.dropWhile (· = c)).reverse)

/-- Rust `str::split_once(c)`. -/
def splitOnceChar (c : Char) (s : String) : Option (String × String) :=
  let pre := s.data.takeWhile (· ≠ c)
  if pre.length = s.data.length then none
  else some (String.mk pre, String.mk (s.data.drop (pre.length + 1)))

/-! ### Task serialization (custom `Serialize for Task`, `src/task/model.rs`) -/

def udaToJson : UdaValue → JsonValue
  | .str s => .str s
  | .number raw => .num raw
  | .date d => .str (formatRfc3339 d)

def optEntry (key : String) (v : Option JsonValue) : List (String × JsonValue) :=
  match v with
  | some j => [(key, j)]
  | none => []

/-- `serde_json::to_value(task)` under the hand-written `Serialize` impl:
known fields in declaration order, optional fields skipped when absent,
collections skipped when empty, then the UDAs flattened at top level. -/
def taskToJson (t : Task) : JsonValue :=
  .obj (
    [("uuid", .str (toString t.id))]
    ++ optEntry "id" (t.displayId.map (fun d => .num (toString d)))
    ++ [("description", .str t.description),
        ("status", .str t.status.serdeStr),
        ("entry", .str (formatRfc3339 t.entry))]
    ++ optEntry "modified" (t.modified.map (fun d => .str (formatRfc3339 d)))
    ++ optEntry "due" (t.due.map (fun d => .str (formatRfc3339 d)))
    ++ optEntry "scheduled" (t.scheduled.map (fun d => .str (formatRfc3339 d)))
    ++ optEntry "wait" (t.wait.map (fun d => .str (formatRfc3339 d)))
    ++ optEntry "end" (t.end_.map (fun d => .str (formatRfc3339 d)))
    ++ optEntry "priority" (t.priority.map (fun p => .str p.serdeStr))
    ++ optEntry "project" (t.project.map .str)
    ++ (if t.tags.isEmpty then [] else [("tags", .arr (t.tags.map .str))])
    ++ (if t.annots.isEmpty then [] else
        [("annotations", .arr (t.annots.map (fun a =>
          .obj [("entry", .str (formatRfc3339 a.entry)),
                ("description", .str a.description)])))])
    ++ (if t.depends.isEmpty then [] else
        [("depends", .arr (t.depends.map (fun u => .str (toString u))))])
    ++ [("urgency", .num (toString t.urgency))]
    ++ optEntry "recur" (t.recur.map (fun r =>
        .obj [("pattern", .str r.pattern), ("periodic", .bool r.periodic)]))
    ++ optEntry "parent" (t.parent.map (fun u => .str (toString u)))
    ++ optEntry "mask" (t.mask.map .str)
    ++ [("active", .bool t.active)]
    ++ optEntry "start" (t.start.map (fun d => .str (formatRfc3339 d)))
    ++ t.udas.map (fun kv => (kv.1, udaToJson kv.2)))

/-! ### Operation batch builder (`src/storage/operation_batch.rs`) -/

/-- `create_from_task`: serialize the full task into the `Create` payload
(serialization of the in-memory type cannot fail). -/
def createFromTask (t : Task) : Operation :=
  .create t.id (taskToJson t)

def optStrJson : Option String → JsonValue
  | some s => .str s
  | none => .null

/-- `compute_update_ops`: field-by-field diff from `old` to `new`,
appending blocks in source order (description, project, tags, status,
dependencies, annotations).  `HashSet` comparison is `hsetEq`; set
difference is iteration filtered by non-membership. -/
def computeUpdateOps (old new : Task) : List Operation :=
  (if old.description ≠ new.description then
    [.update old.id "description" (.str old.description) (.str new.description)]
   else [])
  ++ (if old.project ≠ new.project then
    [.update old.id "project" (optStrJson old.project) (optStrJson new.project)]
   else [])
  ++ (if hsetEq old.tags new.tags then []
   else
    (new.tags.filter (fun t => !old.tags.contains t)).map
      (fun t => .addTag old.id t)
    ++ (old.tags.filter (fun t => !new.tags.contains t)).map
      (fun t => .removeTag old.id t))
  ++ (if old.status ≠ new.status then
    [.update old.id "status" (.str old.status.debugStr) (.str new.status.debugStr)]
   else [])
  ++ (if hsetEq old.depends new.depends then []
   else
    (new.depends.filter (fun d => !old.depends.contains d)).map
      (fun d => .addDependency old.id d)
    ++ (old.depends.filter (fun d => !new.depends.contains d)).map
      (fun d => .removeDependency old.id d))
  ++ (if old.annots = new.annots then []
   else
    (new.annots.filter (fun a =>
      !(old.annots.any (fun b => b.entry == a.entry && b.description == a.description)))).map
      (fun a => .addAnnot old.id a.entry a.description))

/-- `build_save_batch`: one `UndoPoint`, then `Create` for a new task or
the `compute_update_ops` diff for an existing one. -/
def buildSaveBatch (existing : Option Task) (newTask : Task) : List Operation :=
  .undoPoint :: (match existing with
    | none => [createFromTask newTask]
    | some old => computeUpdateOps old newTask)

/-- `build_delete_batch`. -/
def buildDeleteBatch (id : Uuid) : List Operation :=
  [.undoPoint, .delete id]

/-! ### The embedded TaskChampion store

The TaskChampion replica itself is an external collaborator (out of scope
per the specification).  Its observable data model is the per-task string
field map described in the specification's persisted-state section; its
commit is transactional (a batch fully applies or the transaction as a
whole fails with no partial application). -/

/-- A task's stored fields: an association list with duplicate-free keys
(the `HashMap<String, String>` returned by `all_task_data`). -/
abbrev FieldMap := List (String × String)

/-- Modelled from the spec: the embedded store's observable state, one
field map per task uuid. -/
abbrev StoreState := List (Uuid × FieldMap)

def fmGet (fm : FieldMap) (k : String) : Option String :=
  (fm.find? (fun kv => kv.1 == k)).map (fun kv => kv.2)

def fmSet (fm : FieldMap) (k v : String) : FieldMap :=
  if (fm.find? (fun kv => kv.1 == k)).isSome then
    fm.map (fun kv => if kv.1 == k then (k, v) else kv)
  else fm ++ [(k, v)]

def fmRemove (fm : FieldMap) (k : String) : FieldMap :=
  fm.filter (fun kv => kv.1 != k)

def stGet (st : StoreState) (u : Uuid) : Option FieldMap :=
  (st.find? (fun e => e.1 == u)).map (fun e => e.2)

def stSet (st : StoreState) (u : Uuid) (fm : FieldMap) : StoreState :=
  if (st.find? (fun e => e.1 == u)).isSome then
    st.map (fun e => if e.1 == u then (u, fm) else e)
  else st ++ [(u, fm)]

def stModify (st : StoreState) (u : Uuid) (f : FieldMap → FieldMap) : StoreState :=
  match stGet st u with
  | none => st
  | some fm => stSet st u (f fm)

/-- TaskChampion-level operations as emitted by
`to_taskchampion_operations`: the native `UndoPoint`/`Create`/`Update`
primitives plus the structured `taskchampion::Task` helper calls
(`add_tag`, `remove_tag`, `add_annotation`, `add_dependency`,
`remove_dependency`), kept abstract here. -/
inductive TcOp
  | undoPoint
  | create (uuid : Uuid)
  | update (uuid : Uuid) (property : String) (value : Option String)
  | taskAddTag (uuid : Uuid) (tag : String)
  | taskRemoveTag (uuid : Uuid) (tag : String)
  | taskAddAnnot (uuid : Uuid) (entry : DateTime) (description : String)
  | taskAddDep (uuid : Uuid) (dep : Uuid)
  | taskRemoveDep (uuid : Uuid) (dep : Uuid)
deriving DecidableEq, Repr

/-- Modelled from the spec: validity check of `tag.parse::<taskchampion::Tag>()`
(external crate) — a word of alphanumeric/underscore characters. -/
def isValidTcTag (tag : String) : Bool :=
  !tag.isEmpty && tag.data.all (fun c => c.isAlphanum || c = '_')

/-- Value conversion in the `Create` branch of
`to_taskchampion_operations` (operation_batch.rs:229-245): strings kept,
numbers and bools stringified, arrays space-joined only for `tags`,
everything else skipped. -/
def createValueStr (key : String) (v : JsonValue) : Option String :=
  match v with
  | .str s => some s
  | .num n => some n
  | .bool b => some (if b then "true" else "false")
  | .arr items =>
    if key == "tags" then
      some (String.intercalate " "
        (items.filterMap (fun j => match j with | .str s => some s | _ => none)))
    else none
  | _ => none

/-- Value conversion in the `Update` branch
(operation_batch.rs:258-265): `Null` and complex values become `None`. -/
def updateValueStr : JsonValue → Option String
  | .str s => some s
  | .num n => some n
  | .bool b => some (if b then "true" else "false")
  | _ => none

/-- Translation of one `Operation` inside `to_taskchampion_operations`
(operation_batch.rs:214-338).  `st` is the replica state visible to
`replica.get_task` — the committed state before the batch, since
`TaskData::create`/helpers only append to the pending operation list. -/
def opToTcOps (st : StoreState) (op : Operation) : List TcOp :=
  match op with
  | .undoPoint => [.undoPoint]
  | .create uuid data =>
    .create uuid ::
    (match data with
     | .obj fields =>
       fields.filterMap (fun kv =>
         if kv.1 == "uuid" then none
         else (createValueStr kv.1 kv.2).map
           (fun v => TcOp.update uuid kv.1 (some v)))
     | _ => [])
  | .delete uuid => [.create uuid, .update uuid "status" (some "deleted")]
  | .update uuid key _old new => [.create uuid, .update uuid key (updateValueStr new)]
  | .setField uuid key value => [.create uuid, .update uuid key (some value)]
  | .unsetField uuid key => [.create uuid, .update uuid key none]
  | .addTag uuid tag =>
    if (stGet st uuid).isSome then
      if isValidTcTag tag then [.taskAddTag uuid tag] else []
    else [.create uuid, .update uuid ("tag_" ++ tag) (some "")]
  | .removeTag uuid tag =>
    if (stGet st uuid).isSome then
      if isValidTcTag tag then [.taskRemoveTag uuid tag] else []
    else [.create uuid, .update uuid ("tag_" ++ tag) none]
  | .addAnnot uuid entry description =>
    if (stGet st uuid).isSome then [.taskAddAnnot uuid entry description]
    else [.create uuid, .update uuid ("annotation_" ++ toString entry) (some description)]
  | .addDependency uuid dep =>
    if (stGet st uuid).isSome then [.taskAddDep uuid dep]
    else [.create uuid, .update uuid ("dep_" ++ toString dep) (some "")]
  | .removeDependency uuid dep =>
    if (stGet st uuid).isSome then [.taskRemoveDep uuid dep]
    else [.create uuid, .update uuid ("dep_" ++ toString dep) none]

/-- `to_taskchampion_operations` (operation_batch.rs:206-342): maps the
batch in order; the source function has no failing path (it always ends
in `Ok`). -/
def toTaskchampionOperations (st : StoreState) (ops : List Operation) :
    Except String (List TcOp) :=
  .ok (ops.flatMap (opToTcOps st))

/-- Modelled from the spec: the effect of one TaskChampion primitive on
the store's observable field maps.  `Create` makes an empty record when
absent; `Update` sets or clears one field of an existing record; the
`Task` helpers follow the documented key conventions (`tag_<name>`,
`dep_<uuid>`, `annotation_<unix_ts>`). -/
def applyTcOp (st : StoreState) (op : TcOp) : StoreState :=
  match op with
  | .undoPoint => st
  | .create u =>
    (match stGet st u with
     | some _ => st
     | none => stSet st u [])
  | .update u k v =>
    stModify st u (fun fm =>
      match v with
      | some s => fmSet fm k s
      | none => fmRemove fm k)
  | .taskAddTag u tag => stModify st u (fun fm => fmSet fm ("tag_" ++ tag) "")
  | .taskRemoveTag u tag => stModify st u (fun fm => fmRemove fm ("tag_" ++ tag))
  | .taskAddAnnot u e d =>
    stModify st u (fun fm => fmSet fm ("annotation_" ++ toString e) d)
  | .taskAddDep u dep => stModify st u (fun fm => fmSet fm ("dep_" ++ toString dep) "")
  | .taskRemoveDep u dep => stModify st u (fun fm => fmRemove fm ("dep_" ++ toString dep))

/-- Modelled from the spec: `replica.commit_operations` applies the whole
batch in order (transactionally — the failing case is injected at the
call site in `actorCommit`, leaving the state untouched). -/
def storeCommit (st : StoreState) (tcOps : List TcOp) : StoreState :=
  tcOps.foldl applyTcOp st

/-- The actor's `Commit` handler (replica_taskchampion.rs:174-189): map
the batch with `to_taskchampion_operations`, then commit against the
embedded store.  `storeFails` injects an embedded-store commit failure;
per the spec's transaction contract a failed commit applies nothing. -/
def actorCommit (st : StoreState) (ops : List Operation) (storeFails : Bool) :
    StoreState × Except String Unit :=
  match toTaskchampionOperations st ops with
  | .error e => (st, .error ("TaskChampion mapping failed: " ++ e))
  | .ok tcOps =>
    if storeFails then (st, .error "TaskChampion commit failed")
    else (storeCommit st tcOps, .ok ())

/-! ### The actor's `ReadTask` handler (replica_taskchampion.rs:208-357) -/

/-- Status decoding in the `ReadTask` handler: only the four lowercase
names are recognised, everything else falls back to `Pending`. -/
def statusFromStr (s : String) : TaskStatus :=
  if s == "pending" then .pending
  else if s == "completed" then .completed
  else if s == "deleted" then .deleted
  else if s == "waiting" then .waiting
  else .pending

/-- `Uuid::parse_str` under the `Uuid := Nat` abstraction. -/
def uuidParse (s : String) : Option Uuid :=
  s.toNat?

/-- One line of the stored `annotations` field: an RFC 3339 timestamp, a
space, then the text (escaped newlines restored); malformed lines fall
back to `Annotation::new(line)` stamped with the current time. -/
def parseAnnotLine (now : DateTime) (line : String) : Annot :=
  match splitOnceChar ' ' line with
  | some (ts, desc) =>
    (match parseRfc3339 ts with
     | some dt => ⟨dt, desc.replace "\\n" "\n"⟩
     | none => ⟨now, line⟩)
  | none => ⟨now, line⟩

/-- The field names recognised by the `ReadTask` handler; everything else
is bucketed as a user-defined attribute. -/
def standardFields : List String :=
  ["description", "status", "entry", "project", "tags", "modified", "due",
   "scheduled", "wait", "end", "start", "priority", "annotations", "depends",
   "recur", "parent", "mask", "active", "id", "uuid"]

/-- Ordered type inference for a UDA value: numeric parse first, then
RFC 3339 date, else string. -/
def inferUda (v : String) : UdaValue :=
  if parsesF64 v then .number v
  else
    match parseRfc3339 v with
    | some dt => .date dt
    | none => .str v

/-- Reconstruction of a `Task` from its stored field map, as the actor's
`ReadTask` handler does it.  `now` stands for the handler's `Utc::now()`
fallbacks.  Starting from `Task::new(description)` and overwriting fields
one by one is equivalent to building the record once, since every field
is assigned at most once. -/
def reconstructTask (id : Uuid) (td : FieldMap) (now : DateTime) : Task :=
  let description := (fmGet td "description").getD ""
  let statusStr := (fmGet td "status").getD "pending"
  { Task.new 0 now description with
    id := id
    description := description
    status := statusFromStr statusStr
    entry := ((fmGet td "entry").bind parseRfc3339).getD now
    project := fmGet td "project"
    tags :=
      match fmGet td "tags" with
      | some s => (splitWs s).eraseDups
      | none => []
    modified := (fmGet td "modified").bind parseRfc3339
    due := (fmGet td "due").bind parseRfc3339
    scheduled := (fmGet td "scheduled").bind parseRfc3339
    wait := (fmGet td "wait").bind parseRfc3339
    end_ := (fmGet td "end").bind parseRfc3339
    start := (fmGet td "start").bind parseRfc3339
    priority :=
      match fmGet td "priority" with
      | some "H" => some .high
      | some "M" => some .medium
      | some "L" => some .low
      | _ => none
    annots :=
      match fmGet td "annotations" with
      | some s => (linesOf s).map (parseAnnotLine now)
      | none => []
    depends :=
      match fmGet td "depends" with
      | some s => ((splitWs s).filterMap uuidParse).eraseDups
      | none => []
    recur := (fmGet td "recur").bind recurParse
    parent := (fmGet td "parent").bind uuidParse
    mask := fmGet td "mask"
    active :=
      match fmGet td "active" with
      | some s => s == "1" || s == "true" || s == "True"
      | none => false
    udas := td.filterMap (fun kv =>
      if standardFields.contains kv.1 then none
      else some (kv.1, inferUda kv.2)) }

/-- The actor's `ReadTask` handler: look the uuid up in the store's task
data map; absent is `Ok(None)`, present is the reconstructed task. -/
def actorReadTask (st : StoreState) (id : Uuid) (now : DateTime) :
    Except String (Option Task) :=
  match stGet st id with
  | some td => .ok (some (reconstructTask id td now))
  | none => .ok none

/-! ### Query types (`src/query/mod.rs`, `src/query/filters.rs`) -/

/-- `ProjectFilter`. -/
inductive ProjectFilter
  | exact (p : String)
  | equals (p : String)
  | hierarchy (p : String)
  | multiple (ps : List String)
  | noProject
deriving DecidableEq, Repr

/-- `TagFilter` (`HashSet` fields as lists; `include` is a Lean keyword,
hence `include_`). -/
structure TagFilter where
  include_ : List String
  exclude : List String
deriving DecidableEq, Repr

/-- `TagFilter::matches`. -/
def TagFilter.matches (f : TagFilter) (taskTags : List String) : Bool :=
  if !f.include_.isEmpty && !(f.include_.any (fun t => taskTags.contains t)) then
    false
  else if f.exclude.any (fun t => taskTags.contains t) then false
  else true

/-- `DateFilter` (only its presence matters to the filtering code — the
file backend's date filtering is an explicit TODO no-op). -/
inductive DateFilter
  | dueBefore (d : DateTime)
  | dueAfter (d : DateTime)
  | dueBetween (a b : DateTime)
  | scheduledBefore (d : DateTime)
  | scheduledAfter (d : DateTime)
  | modifiedBefore (d : DateTime)
  | modifiedAfter (d : DateTime)
  | entryBefore (d : DateTime)
  | entryAfter (d : DateTime)
deriving DecidableEq, Repr

/-- `SortCriteria`. -/
structure SortCriteria where
  field : String
  ascending : Bool
deriving DecidableEq, Repr

/-- `FilterMode`. -/
inductive FilterMode
  | combineWithContext
  | ignoreContext
deriving DecidableEq, Repr

/-- `TaskQuery`. -/
structure TaskQuery where
  status : Option TaskStatus := none
  projectFilter : Option ProjectFilter := none
  tagFilter : Option TagFilter := none
  dateFilter : Option DateFilter := none
  sort : Option SortCriteria := none
  limit : Option Nat := none
  offset : Option Nat := none
  filterMode : Option FilterMode := none
deriving DecidableEq, Repr

/-- `UserContext` (`src/config/context.rs`). -/
structure UserContext where
  name : String
  readFilter : String
  writeFilter : Option String
  active : Bool
deriving DecidableEq, Repr

/-- Token loop of `parse_project_from_filter`
(`src/query/filters.rs:72-85`). -/
def parseProjectTokens : List String → Option String
  | [] => none
  | token :: rest =>
    if token.startsWith "project:" then
      some (trimMatchesChar '\'' (trimMatchesChar '"' (token.drop 8)))
    else if token.startsWith "project==" || token.startsWith "project=" then
      let val :=
        match token.data.findIdx? (fun c => c = '=') with
        | some pos => token.drop (pos + 1)
        | none => token
      let v := trimMatchesChar '\'' (trimMatchesChar '"' val)
      if v.isEmpty then parseProjectTokens rest else some v
    else parseProjectTokens rest

/-- `parse_project_from_filter`. -/
def parseProjectFromFilter (filter : String) : Option String :=
  parseProjectTokens (splitWs filter)

/-! ### `TaskChampionStorageBackend::query_tasks` (taskchampion.rs:290-340) -/

/-- The retain predicate of the TaskChampion backend's `query_tasks`:
status filter, project filter (only `Equals`/`Exact` are implemented —
the other arms are a TODO that retains the task), and the active-context
project constraint. -/
def tcKeepTask (q : TaskQuery) (ctx : Option UserContext) (task : Task) : Bool :=
  (match q.status with
   | some s => task.status = s
   | none => true) &&
  (match q.projectFilter with
   | some (.equals p) => task.project = some p
   | some (.exact p) => task.project = some p
   | some _ => true
   | none => true) &&
  (match ctx with
   | some c =>
     if q.filterMode = some .ignoreContext then true
     else
       match parseProjectFromFilter c.readFilter with
       | some proj => task.project = some proj
       | none => true
   | none => true)

/-- The pagination step shared verbatim by both backends
(taskchampion.rs:336-339, mod.rs:332-335):
`start = offset.unwrap_or(0)`, `end = limit.map(|l| start+l).unwrap_or(len)`,
then `skip(start).take(end - start)`.  The usize subtraction `end - start`
is checked here: `none` models the debug-assertion panic when it
underflows (in release builds it wraps). -/
def pageSlice (tasks : List Task) (offset limit : Option Nat) :
    Option (List Task) :=
  let start := offset.getD 0
  let stop := match limit with
    | some l => start + l
    | none => tasks.length
  if start ≤ stop then some ((tasks.drop start).take (stop - start))
  else none

/-- `TaskChampionStorageBackend::query_tasks` on the already-loaded task
list: retain, then paginate. -/
def tcQueryTasks (tasks : List Task) (q : TaskQuery) (ctx : Option UserContext) :
    Option (List Task) :=
  pageSlice (tasks.filter (tcKeepTask q ctx)) q.offset q.limit

/-! ### `FileStorageBackend::filter_tasks` (mod.rs:199-336) -/

/-- The filter closure of `FileStorageBackend::filter_tasks`: status,
project (all four modes), tags; the date filter is a TODO no-op. -/
def fileKeepTask (q : TaskQuery) (task : Task) : Bool :=
  (match q.status with
   | some s => task.status = s
   | none => true) &&
  (match q.projectFilter with
   | some (.equals p) => task.project = some p
   | some (.exact p) => task.project = some p
   | some (.hierarchy p) =>
     (match task.project with
      | some tp => tp.startsWith p
      | none => false)
   | some (.multiple ps) =>
     (match task.project with
      | some tp => ps.contains tp
      | none => false)
   | some .noProject => task.project.isNone
   | none => true) &&
  (match q.tagFilter with
   | some f => f.matches task.tags
   | none => true)

def priorityCompare (a b : Priority) : Ordering :=
  compare a.toNat b.toNat

def orderedBy (asc : Bool) (o : Ordering) : Ordering :=
  if asc then o else o.swap

/-- Option-valued comparator shape used for `due` and `priority`:
both present compares (direction applies), a present value sorts before
an absent one regardless of direction, two absent are equal. -/
def optFieldCompare (asc : Bool) (cmp : α → α → Ordering) :
    Option α → Option α → Ordering
  | some a, some b => orderedBy asc (cmp a b)
  | some _, none => .lt
  | none, some _ => .gt
  | none, none => .eq

/-- The sort step of `filter_tasks` (mod.rs:262-329): a stable sort by
the named field, unknown fields ignored. -/
def fileSortTasks (sort : Option SortCriteria) (l : List Task) : List Task :=
  match sort with
  | none => l
  | some sc =>
    let stable (cmp : Task → Task → Ordering) :=
      l.mergeSort (fun a b => cmp a b ≠ .gt)
    match sc.field with
    | "entry" => stable (fun a b => orderedBy sc.ascending (compare a.entry b.entry))
    | "created" => stable (fun a b => orderedBy sc.ascending (compare a.entry b.entry))
    | "modified" => stable (fun a b =>
        orderedBy sc.ascending
          (compare (a.modified.getD a.entry) (b.modified.getD b.entry)))
    | "due" => stable (fun a b => optFieldCompare sc.ascending compare a.due b.due)
    | "priority" => stable (fun a b =>
        optFieldCompare sc.ascending priorityCompare a.priority b.priority)
    | "project" => stable (fun a b =>
        orderedBy sc.ascending
          (compare (a.project.getD "") (b.project.getD "")))
    | _ => l

/-- `FileStorageBackend::filter_tasks` on the cache's task list: filter,
sort, paginate. -/
def fileFilterTasks (tasks : List Task) (q : TaskQuery) : Option (List Task) :=
  pageSlice (fileSortTasks q.sort (tasks.filter (fileKeepTask q))) q.offset q.limit

/-! ### The TaskChampion storage backend's write path
(taskchampion.rs:190-255) -/

/-- The injected `ReplicaWrapper` (in production the replica actor):
its store state plus an injected embedded-store failure flag for the
next commit. -/
structure ReplicaState where
  store : StoreState
  commitFails : Bool

/-- `TaskChampionStorageBackend`: the optional injected replica wrapper
and the direct SQLite read path (`load_task`), the latter kept abstract
as a function since it belongs to the external `rusqlite` collaborator. -/
structure TCBackend where
  replica : Option ReplicaState
  dbLoad : Uuid → Except String (Option Task)

/-- The configuration-error message of the unconfigured write path. -/
def writePathMsg : String :=
  "TaskChampion write path not configured: no ReplicaWrapper injected"

/-- `TaskChampionStorageBackend::save_task`: read the existing snapshot
(replica `read_task` with errors collapsed to `None` when a wrapper is
injected, otherwise the direct `load_task` with `?`-propagation), build
the save batch, then commit through the wrapper or fail with the
configuration error. -/
def backendSaveTask (b : TCBackend) (t : Task) (now : DateTime) :
    TCBackend × Except String Unit :=
  match b.replica with
  | some rep =>
    let existing :=
      match actorReadTask rep.store t.id now with
      | .ok ex => ex
      | .error _ => none
    let ops := buildSaveBatch existing t
    let (st', res) := actorCommit rep.store ops rep.commitFails
    let b' := { b with replica := some { rep with store := st' } }
    match res with
    | .ok _ => (b', .ok ())
    | .error e => (b', .error ("Failed to commit operations: " ++ e))
  | none =>
    match b.dbLoad t.id with
    | .error e => (b, .error e)
    | .ok existing =>
      let _ops := buildSaveBatch existing t
      (b, .error writePathMsg)

/-- `TaskChampionStorageBackend::delete_task`: build the delete batch
and commit through the wrapper, or fail with the configuration error. -/
def backendDeleteTask (b : TCBackend) (id : Uuid) :
    TCBackend × Except String Unit :=
  match b.replica with
  | some rep =>
    let ops := buildDeleteBatch id
    let (st', res) := actorCommit rep.store ops rep.commitFails
    let b' := { b with replica := some { rep with store := st' } }
    match res with
    | .ok _ => (b', .ok ())
    | .error e => (b', .error ("Failed to commit operations: " ++ e))
  | none => (b, .error writePathMsg)

/-! ### Claim-support definitions -/

/-- Number of `AddTag{uuid, tag}` operations in a batch. -/
def countAddTag (ops : List Operation) (uuid : Uuid) (tag : String) : Nat :=
  (ops.filter (fun op =>
    match op with
    | .addTag u s => u == uuid && s == tag
    | _ => false)).length

/-- Number of `RemoveTag{uuid, tag}` operations in a batch. -/
def countRemoveTag (ops : List Operation) (uuid : Uuid) (tag : String) : Nat :=
  (ops.filter (fun op =>
    match op with
    | .removeTag u s => u == uuid && s == tag
    | _ => false)).length

/-- Number of `AddAnnotation{uuid, entry, description}` operations in a
batch. -/
def countAddAnnot (ops : List Operation) (uuid : Uuid) (e : DateTime)
    (d : String) : Nat :=
  (ops.filter (fun op =>
    match op with
    | .addAnnot u en de => u == uuid && en == e && de == d
    | _ => false)).length

/-- Does the annotation list contain an exact `(entry, description)`
match? (`old.annotations.iter().any(..)` in `compute_update_ops`.) -/
def hasAnnPair (l : List Annot) (e : DateTime) (d : String) : Bool :=
  l.any (fun a => a.entry == e && a.description == d)

/-- The operation shapes `compute_update_ops` can emit: generic updates,
tag and dependency deltas, annotation additions.  In particular there is
no shape that removes an annotation. -/
def isFieldDiffOp : Operation → Bool
  | .update .. => true
  | .addTag .. => true
  | .removeTag .. => true
  | .addDependency .. => true
  | .removeDependency .. => true
  | .addAnnot .. => true
  | _ => false

/-- The project-filter semantics in the specification's words: exact
match, hierarchy-prefix match, multiple-candidate match, or no-project
match. -/
def projectFilterSpec (pf : ProjectFilter) (p : Option String) : Prop :=
  match pf with
  | .exact s => p = some s
  | .equals s => p = some s
  | .hierarchy s => ∃ tp, p = some tp ∧ tp.startsWith s
  | .multiple ps => ∃ tp, p = some tp ∧ tp ∈ ps
  | .noProject => p = none

/-! ### Concrete inputs for witnesses and counterexamples -/

/-- A stored task used by the status round-trip check (C10). -/
def oldTask10 : Task := Task.new 7 0 "report"

/-- The same task with only the status changed (C10). -/
def newTask10 : Task := { oldTask10 with status := .completed }

/-- A query whose offset exceeds the task count with no limit (C9). -/
def underflowQuery : TaskQuery := { offset := some 1 }

/-- A task carrying a project, for the project-filter check (C8). -/
def taskHome : Task := { Task.new 3 0 "chore" with project := some "home" }

/-- A query asking for tasks with no project (C8). -/
def qNoProject : TaskQuery := { projectFilter := some .noProject }

/-- The error of the direct read path when the SQLite store lacks the
`tasks` table (C5). -/
def dbErrMsg : String := "Failed to prepare query: no such table: tasks"

/-- A backend with no injected replica wrapper whose direct read path
fails (C5 counterexample). -/
def noReplicaFailingBackend : TCBackend :=
  { replica := none, dbLoad := fun _ => .error dbErrMsg }

/-- A backend with no injected replica wrapper whose direct read path
succeeds with no task (C5 witness). -/
def noReplicaOkBackend : TCBackend :=
  { replica := none, dbLoad := fun _ => .ok none }

/-- A probe task for the write-path checks (C5). -/
def probeTask : Task := Task.new 5 0 "probe"

/-- Concrete old/new tasks differing only in tags (C2 witness). -/
def oldTags2 : Task := { Task.new 9 0 "tagged" with tags := ["a", "b"] }

/-- `oldTags2` with tag `a` removed and `c` added (C2 witness). -/
def newTags2 : Task := { oldTags2 with tags := ["b", "c"] }

/-- A stored field map with an unrecognized field (C7 witness). -/
def tdUda7 : FieldMap := [("description", "x"), ("estimate", "3.5")]

/-- A task without annotations (C6 witness). -/
def oldAnn6 : Task := Task.new 4 0 "notes"

/-- `oldAnn6` with one annotation appended (C6 witness). -/
def newAnn6 : Task := { oldAnn6 with annots := [⟨100, "first"⟩] }

/-! ### Helper lemmas -/

theorem hsetEq_refl [BEq α] [LawfulBEq α] (l : List α) : hsetEq l l = true := by
  simp [hsetEq, List.all_eq_true]

theorem computeUpdateOps_self (t : Task) : computeUpdateOps t t = [] := by
  simp [computeUpdateOps, hsetEq_refl]

theorem find?_map_set [BEq κ] [LawfulBEq κ] (l : List (κ × β)) (k : κ) (v : β)
    (h : (l.find? (fun e => e.1 == k)).isSome) :
    ((l.map (fun e => if e.1 == k then (k, v) else e)).find?
      (fun e => e.1 == k)) = some (k, v) := by
  induction l with
  | nil => simp at h
  | cons hd tl ih =>
    by_cases hk : (hd.1 == k) = true
    · simp [hk]
    · have hk' : (hd.1 == k) = false := by simpa using hk
      have h' : (tl.find? (fun e => e.1 == k)).isSome := by
        simpa [List.find?_cons, hk'] using h
      simpa [List.find?_cons, hk'] using ih h'

theorem find?_set_same [BEq κ] [LawfulBEq κ] (l : List (κ × β)) (k : κ) (v : β) :
    ((if (l.find? (fun e => e.1 == k)).isSome then
        l.map (fun e => if e.1 == k then (k, v) else e)
      else l ++ [(k, v)]).find? (fun e => e.1 == k)) = some (k, v) := by
  by_cases h : (l.find? (fun e => e.1 == k)).isSome
  · rw [if_pos h]
    exact find?_map_set l k v h
  · rw [if_neg h, List.find?_append]
    have hnone : l.find? (fun e => e.1 == k) = none := by
      cases hf : l.find? (fun e => e.1 == k) with
      | none => rfl
      | some x => rw [hf] at h; simp at h
    simp [hnone]

theorem fmGet_fmSet_same (fm : FieldMap) (k v : String) :
    fmGet (fmSet fm k v) k = some v := by
  show ((if (fm.find? (fun e => e.1 == k)).isSome then
      fm.map (fun e => if e.1 == k then (k, v) else e)
    else fm ++ [(k, v)]).find? (fun e => e.1 == k)).map (fun kv => kv.2) = some v
  rw [find?_set_same]
  rfl

theorem stGet_stSet_same (st : StoreState) (u : Uuid) (fm : FieldMap) :
    stGet (stSet st u fm) u = some fm := by
  show ((if (st.find? (fun e => e.1 == u)).isSome then
      st.map (fun e => if e.1 == u then (u, fm) else e)
    else st ++ [(u, fm)]).find? (fun e => e.1 == u)).map (fun e => e.2) = some fm
  rw [find?_set_same]
  rfl

/-! ### Claim C3 — save batch shape -/

/-- C3: for every task `t`, `build_save_batch(None, t)` is the two-element
list `[UndoPoint, Create{uuid: t.id, ..}]`, and for every task `old`,
`build_save_batch(Some(old), old)` (no change) is the single-element list
`[UndoPoint]`. -/
theorem buildSaveBatch_shape (t old : Task) :
    buildSaveBatch none t =
      [Operation.undoPoint, Operation.create t.id (taskToJson t)] ∧
    buildSaveBatch (some old) old = [Operation.undoPoint] := by
  constructor
  · rfl
  · simp [buildSaveBatch, computeUpdateOps_self]

/-! ### Claim C1 — commit atomicity -/

/-- C1: whenever the actor's `Commit` handler fails (mapping failure or
embedded-store commit failure), the store state is exactly what it was
before the attempted commit, so a subsequent `ReadTask` for any uuid
returns the pre-commit snapshot (or `None` for a task that did not
exist). -/
theorem commit_failure_preserves_state (st : StoreState) (ops : List Operation)
    (storeFails : Bool) (e : String)
    (h : (actorCommit st ops storeFails).2 = .error e) :
    (actorCommit st ops storeFails).1 = st ∧
    ∀ (u : Uuid) (now : DateTime),
      actorReadTask (actorCommit st ops storeFails).1 u now =
        actorReadTask st u now := by
  cases storeFails with
  | false => simp [actorCommit, toTaskchampionOperations] at h
  | true => exact ⟨rfl, fun _ _ => rfl⟩

/-- Witness for C1: a delete batch against the empty store with an
injected commit failure indeed fails, and the state and all reads are
unchanged. -/
theorem commit_failure_preserves_state_witness :
    (actorCommit [] (buildDeleteBatch 1) true).2 =
      .error "TaskChampion commit failed" ∧
    ((actorCommit [] (buildDeleteBatch 1) true).1 = [] ∧
     ∀ (u : Uuid) (now : DateTime),
       actorReadTask (actorCommit [] (buildDeleteBatch 1) true).1 u now =
         actorReadTask [] u now) :=
  ⟨rfl, commit_failure_preserves_state [] (buildDeleteBatch 1) true
    "TaskChampion commit failed" rfl⟩

/-! ### Claim C4 — logical delete -/

theorem reconstructTask_status (id : Uuid) (td : FieldMap) (now : DateTime) :
    (reconstructTask id td now).status =
      statusFromStr ((fmGet td "status").getD "pending") := rfl

theorem stGet_applyTcOp_create (st : StoreState) (u : Uuid) :
    stGet (applyTcOp st (.create u)) u = some ((stGet st u).getD []) := by
  cases hc : stGet st u with
  | none => simp [applyTcOp, hc, stGet_stSet_same]
  | some fm => simp [applyTcOp, hc]

theorem stModify_of_get (st : StoreState) (u : Uuid) (f : FieldMap → FieldMap)
    (fm : FieldMap) (h : stGet st u = some fm) :
    stModify st u f = stSet st u (f fm) := by
  simp [stModify, h]

/-- C4: for every uuid and every store state, committing
`build_delete_batch(uuid)` maps the `Delete` to a `status := "deleted"`
field write (no physical removal), the commit succeeds, and the
subsequent `ReadTask` returns `Some(task)` with `status == Deleted`,
never `None`. -/
theorem delete_batch_logical (st : StoreState) (u : Uuid) (now : DateTime) :
    toTaskchampionOperations st (buildDeleteBatch u) =
      .ok [TcOp.undoPoint, TcOp.create u, TcOp.update u "status" (some "deleted")] ∧
    (actorCommit st (buildDeleteBatch u) false).2 = .ok () ∧
    ∃ t, actorReadTask (actorCommit st (buildDeleteBatch u) false).1 u now =
        .ok (some t) ∧ t.status = TaskStatus.deleted := by
  refine ⟨rfl, rfl, ?_⟩
  have hstate : (actorCommit st (buildDeleteBatch u) false).1 =
      stSet (applyTcOp st (.create u)) u
        (fmSet ((stGet st u).getD []) "status" "deleted") := by
    show applyTcOp (applyTcOp (applyTcOp st .undoPoint) (.create u))
      (.update u "status" (some "deleted")) = _
    rw [show applyTcOp st TcOp.undoPoint = st from rfl]
    exact stModify_of_get _ u _ _ (stGet_applyTcOp_create st u)
  refine ⟨reconstructTask u (fmSet ((stGet st u).getD []) "status" "deleted") now,
    ?_, ?_⟩
  · rw [hstate]
    simp [actorReadTask, stGet_stSet_same]
  · rw [reconstructTask_status, fmGet_fmSet_same]
    rfl

/-! ### Claim C10 — status update round trip (code bug) -/

/-- C10 fails on the code: `compute_update_ops` writes the status with
the derived `Debug` formatting (capitalised, e.g. "Completed"), while the
`ReadTask` handler only recognises the lowercase names and falls back to
`Pending`.  At the concrete input below — a stored pending task whose
status is changed to completed — the committed batch succeeds but the
read-back status is `Pending`, not `Completed`. -/
theorem status_update_roundtrip_bug :
    oldTask10.status = TaskStatus.pending ∧
    newTask10.status = TaskStatus.completed ∧
    buildSaveBatch (some oldTask10) newTask10 =
      [Operation.undoPoint,
       Operation.update 7 "status" (.str "Pending") (.str "Completed")] ∧
    (actorCommit [] (buildSaveBatch (some oldTask10) newTask10) false).2 = .ok () ∧
    (match actorReadTask
        (actorCommit [] (buildSaveBatch (some oldTask10) newTask10) false).1
        oldTask10.id 0 with
     | .ok (some t) => some t.status
     | _ => none) = some TaskStatus.pending :=
  ⟨rfl, rfl, rfl, rfl, rfl⟩

/-! ### Claim C9 — pagination totality (code bug) -/

/-- C9 fails on the code: with `offset = 1`, `limit = None` and an empty
filtered set, both backends compute `end - start = 0 - 1`, which
underflows `usize` (a panic under debug assertions); `pageSlice` models
the checked subtraction and returns `none` here instead of the empty
page the claim requires. -/
theorem query_pagination_underflow :
    tcQueryTasks [] underflowQuery none = none ∧
    fileFilterTasks [] underflowQuery = none :=
  ⟨rfl, rfl⟩

/-! ### Claim C8 — project filter modes -/

/-- Counterexample to C8 as stated: the TaskChampion backend's
`query_tasks` does not apply the no-project mode (a TODO arm retains the
task), so a task carrying a project survives a `ProjectFilter::None`
query. -/
theorem tc_project_filter_gap :
    tcQueryTasks [taskHome] qNoProject none = some [taskHome] ∧
    taskHome.project = some "home" :=
  ⟨rfl, rfl⟩

/-- C8 amended: the file backend's filter supports all four project
modes, retaining exactly the satisfying tasks; the TaskChampion backend
applies only the exact/equals mode and retains every task under the
hierarchy, multiple and no-project modes. -/
theorem project_filter_modes (pf : ProjectFilter) (t : Task) :
    (fileKeepTask { projectFilter := some pf } t = true ↔
      projectFilterSpec pf t.project) ∧
    (tcKeepTask { projectFilter := some pf } none t = true ↔
      (match pf with
       | .exact s => t.project = some s
       | .equals s => t.project = some s
       | _ => True)) := by
  constructor
  · cases pf with
    | exact s => simp [fileKeepTask, projectFilterSpec]
    | equals s => simp [fileKeepTask, projectFilterSpec]
    | hierarchy s =>
      cases hp : t.project with
      | none => simp [fileKeepTask, projectFilterSpec, hp]
      | some tp => simp [fileKeepTask, projectFilterSpec, hp]
    | multiple ps =>
      cases hp : t.project with
      | none => simp [fileKeepTask, projectFilterSpec, hp]
      | some tp => simp [fileKeepTask, projectFilterSpec, hp]
    | noProject => simp [fileKeepTask, projectFilterSpec, Option.isNone_iff_eq_none]
  · cases pf <;> simp [tcKeepTask]

/-! ### Claim C5 — write-path configuration error -/

/-- Counterexample to C5 as stated: with no wrapper injected,
`save_task` first reads the existing snapshot through the direct SQLite
path and propagates its error with `?`; when that read fails the caller
sees the database error, not the "write path not configured"
configuration error the claim promises. -/
theorem save_task_error_not_config :
    (backendSaveTask noReplicaFailingBackend probeTask 0).2 = .error dbErrMsg ∧
    dbErrMsg ≠ writePathMsg := by
  refine ⟨rfl, ?_⟩
  decide

/-- C5 amended: with no wrapper injected neither `save_task` nor
`delete_task` ever returns `Ok` and neither modifies any state;
`delete_task` always fails with the configuration error, and `save_task`
fails with the configuration error whenever the preliminary direct read
succeeds (a failing read surfaces that read's error instead). -/
theorem write_path_unconfigured (b : TCBackend) (t : Task) (id : Uuid)
    (now : DateTime) (h : b.replica = none) :
    ((backendSaveTask b t now).1 = b ∧
     (∀ u, (backendSaveTask b t now).2 ≠ .ok u) ∧
     (∀ ex, b.dbLoad t.id = .ok ex →
       (backendSaveTask b t now).2 = .error writePathMsg)) ∧
    backendDeleteTask b id = (b, .error writePathMsg) := by
  refine ⟨⟨?_, ?_, ?_⟩, ?_⟩
  · cases hl : b.dbLoad t.id with
    | error e => simp [backendSaveTask, h, hl]
    | ok ex => simp [backendSaveTask, h, hl]
  · intro u
    cases hl : b.dbLoad t.id with
    | error e => simp [backendSaveTask, h, hl]
    | ok ex => simp [backendSaveTask, h, hl]
  · intro ex hl
    simp [backendSaveTask, h, hl]
  · simp [backendDeleteTask, h]

/-- Witness for C5's amended statement at a concrete unconfigured
backend whose direct read succeeds. -/
theorem write_path_unconfigured_witness :
    noReplicaOkBackend.replica = none ∧
    (((backendSaveTask noReplicaOkBackend probeTask 0).1 = noReplicaOkBackend ∧
      (∀ u, (backendSaveTask noReplicaOkBackend probeTask 0).2 ≠ .ok u) ∧
      (∀ ex, noReplicaOkBackend.dbLoad probeTask.id = .ok ex →
        (backendSaveTask noReplicaOkBackend probeTask 0).2 = .error writePathMsg)) ∧
     backendDeleteTask noReplicaOkBackend 5 = (noReplicaOkBackend, .error writePathMsg)) :=
  ⟨rfl, write_path_unconfigured noReplicaOkBackend probeTask 5 0 rfl⟩

/-! ### Claim C2 — tag diff correctness -/

theorem hsetEq_mem_iff [BEq α] [LawfulBEq α] {a b : List α}
    (h : hsetEq a b = true) : ∀ x, x ∈ a ↔ x ∈ b := by
  simp only [hsetEq, Bool.and_eq_true, List.all_eq_true] at h
  intro x
  constructor
  · intro hx
    simpa using h.1 x hx
  · intro hx
    simpa using h.2 x hx

theorem count_filter_beq_nodup (l excl : List String) (tg : String)
    (hnd : l.Nodup) (hmem : tg ∈ l) (hexcl : tg ∉ excl) :
    ((l.filter (fun t => !excl.contains t)).filter (fun s => s == tg)).length = 1 := by
  have h1 : (l.filter (fun t => !excl.contains t)).Nodup := hnd.filter _
  have h2 : tg ∈ l.filter (fun t => !excl.contains t) := by
    rw [List.mem_filter]
    exact ⟨hmem, by simpa using hexcl⟩
  have hc := List.count_eq_one_of_mem h1 h2
  simpa [List.count, List.countP_eq_length_filter] using hc

/-- C2: for all tasks `old` and `new` that differ only in their tag sets,
`compute_update_ops(old, new)` contains exactly one `AddTag{old.id, t}`
per element of `new.tags − old.tags`, exactly one `RemoveTag{old.id, t}`
per element of `old.tags − new.tags`, and no other operation. -/
theorem compute_update_ops_tags (old new : Task)
    (hdesc : old.description = new.description)
    (hproj : old.project = new.project)
    (hstat : old.status = new.status)
    (hdeps : hsetEq old.depends new.depends = true)
    (hann : old.annots = new.annots)
    (hndOld : old.tags.Nodup) (hndNew : new.tags.Nodup) :
    (∀ tg, tg ∈ new.tags → tg ∉ old.tags →
      countAddTag (computeUpdateOps old new) old.id tg = 1) ∧
    (∀ tg, tg ∈ old.tags → tg ∉ new.tags →
      countRemoveTag (computeUpdateOps old new) old.id tg = 1) ∧
    (∀ op ∈ computeUpdateOps old new,
      (∃ tg, op = .addTag old.id tg ∧ tg ∈ new.tags ∧ tg ∉ old.tags) ∨
      (∃ tg, op = .removeTag old.id tg ∧ tg ∈ old.tags ∧ tg ∉ new.tags)) := by
  have hops : computeUpdateOps old new =
      (if hsetEq old.tags new.tags then []
       else
        (new.tags.filter (fun t => !old.tags.contains t)).map
          (fun t => Operation.addTag old.id t)
        ++ (old.tags.filter (fun t => !new.tags.contains t)).map
          (fun t => Operation.removeTag old.id t)) := by
    simp [computeUpdateOps, hdesc, hproj, hstat, hdeps, hann]
  by_cases hset : hsetEq old.tags new.tags = true
  · rw [hops, if_pos hset]
    have hiff := hsetEq_mem_iff hset
    refine ⟨?_, ?_, ?_⟩
    · intro tg hmem hnot
      exact absurd ((hiff tg).mpr hmem) hnot
    · intro tg hmem hnot
      exact absurd ((hiff tg).mp hmem) hnot
    · intro op hop
      simp at hop
  · rw [hops, if_neg hset]
    refine ⟨?_, ?_, ?_⟩
    · intro tg hmem hnot
      rw [countAddTag, List.filter_append, List.length_append]
      rw [List.filter_map, List.filter_map]
      have hre : ((fun op =>
          match op with
          | Operation.addTag u s => u == old.id && s == tg
          | _ => false) ∘ fun t => Operation.removeTag old.id t) =
          fun _ => false := by
        funext t; rfl
      have had : ((fun op =>
          match op with
          | Operation.addTag u s => u == old.id && s == tg
          | _ => false) ∘ fun t => Operation.addTag old.id t) =
          fun s => s == tg := by
        funext t; simp
      rw [hre, had, List.filter_false]
      simp only [List.map_nil, List.length_nil, List.length_map, Nat.add_zero]
      exact count_filter_beq_nodup new.tags old.tags tg hndNew hmem hnot
    · intro tg hmem hnot
      rw [countRemoveTag, List.filter_append, List.length_append]
      rw [List.filter_map, List.filter_map]
      have had : ((fun op =>
          match op with
          | Operation.removeTag u s => u == old.id && s == tg
          | _ => false) ∘ fun t => Operation.addTag old.id t) =
          fun _ => false := by
        funext t; rfl
      have hre : ((fun op =>
          match op with
          | Operation.removeTag u s => u == old.id && s == tg
          | _ => false) ∘ fun t => Operation.removeTag old.id t) =
          fun s => s == tg := by
        funext t; simp
      rw [had, hre, List.filter_false]
      simp only [List.map_nil, List.length_nil, List.length_map, Nat.zero_add]
      exact count_filter_beq_nodup old.tags new.tags tg hndOld hmem hnot
    · intro op hop
      rw [List.mem_append] at hop
      rcases hop with hop | hop
      · rw [List.mem_map] at hop
        obtain ⟨t, ht, rfl⟩ := hop
        rw [List.mem_filter] at ht
        exact Or.inl ⟨t, rfl, ht.1, by simpa using ht.2⟩
      · rw [List.mem_map] at hop
        obtain ⟨t, ht, rfl⟩ := hop
        rw [List.mem_filter] at ht
        exact Or.inr ⟨t, rfl, ht.1, by simpa using ht.2⟩

/-- Witness for C2 at concrete tasks with tags `{a, b}` and `{b, c}`. -/
theorem compute_update_ops_tags_witness :
    (oldTags2.description = newTags2.description ∧
     oldTags2.tags.Nodup ∧ newTags2.tags.Nodup) ∧
    ((∀ tg, tg ∈ newTags2.tags → tg ∉ oldTags2.tags →
      countAddTag (computeUpdateOps oldTags2 newTags2) oldTags2.id tg = 1) ∧
    (∀ tg, tg ∈ oldTags2.tags → tg ∉ newTags2.tags →
      countRemoveTag (computeUpdateOps oldTags2 newTags2) oldTags2.id tg = 1) ∧
    (∀ op ∈ computeUpdateOps oldTags2 newTags2,
      (∃ tg, op = .addTag oldTags2.id tg ∧ tg ∈ newTags2.tags ∧ tg ∉ oldTags2.tags) ∨
      (∃ tg, op = .removeTag oldTags2.id tg ∧ tg ∈ oldTags2.tags ∧ tg ∉ newTags2.tags))) :=
  ⟨⟨rfl, by decide, by decide⟩,
   compute_update_ops_tags oldTags2 newTags2 rfl rfl rfl rfl rfl
     (by decide) (by decide)⟩

/-! ### Claim C6 — annotation diff is append-only -/

theorem mem_of_mem_ite {c : Prop} [Decidable c] {a b : List α} {x : α}
    (h : x ∈ if c then a else b) : x ∈ a ∨ x ∈ b := by
  by_cases hc : c
  · rw [if_pos hc] at h
    exact Or.inl h
  · rw [if_neg hc] at h
    exact Or.inr h

theorem filter_annot_map (uid : Uuid) (e : DateTime) (d : String) (l : List Annot) :
    List.filter (fun op =>
      match op with
      | Operation.addAnnot u en de => u == uid && en == e && de == d
      | _ => false) (l.map (fun a => Operation.addAnnot uid a.entry a.description)) =
    (l.filter (fun a => a.entry == e && a.description == d)).map
      (fun a => Operation.addAnnot uid a.entry a.description) := by
  induction l with
  | nil => rfl
  | cons hd tl ih =>
    by_cases hq : (hd.entry == e && hd.description == d) = true
    · simp only [List.map_cons, List.filter_cons]
      simp [hq, ih]
    · have hq' : (hd.entry == e && hd.description == d) = false := by
        simpa using hq
      simp only [List.map_cons, List.filter_cons]
      simp [hq', ih]

/-- C6: `compute_update_ops` emits one `AddAnnotation{old.id, entry,
description}` per occurrence in `new.annotations` of a pair with no
exact match in `old.annotations`, none for matched pairs, and emits no
operation that removes an annotation (every emitted operation is a
field-diff shape — update, tag/dependency delta, or annotation
addition; the `Operation` type has no annotation-removal variant and no
unset/delete shape is ever produced by the diff). -/
theorem compute_update_ops_annots (old new : Task) :
    (∀ e d, countAddAnnot (computeUpdateOps old new) old.id e d =
      if hasAnnPair old.annots e d then 0
      else (new.annots.filter
        (fun a => a.entry == e && a.description == d)).length) ∧
    (∀ op ∈ computeUpdateOps old new, isFieldDiffOp op = true) := by
  constructor
  · intro e d
    simp only [computeUpdateOps, countAddAnnot, List.filter_append,
      List.length_append]
    have hupd : ∀ (c : Prop) [Decidable c] (k : String) (j1 j2 : JsonValue),
        (List.filter (fun op =>
          match op with
          | Operation.addAnnot u en de => u == old.id && en == e && de == d
          | _ => false)
          (if c then [Operation.update old.id k j1 j2] else [])).length = 0 := by
      intro c _ k j1 j2
      by_cases hc : c
      · rw [if_pos hc]
        rfl
      · rw [if_neg hc]
        rfl
    have htags :
        (List.filter (fun op =>
          match op with
          | Operation.addAnnot u en de => u == old.id && en == e && de == d
          | _ => false)
          (if hsetEq old.tags new.tags then []
           else
            (new.tags.filter (fun t => !old.tags.contains t)).map
              (fun t => Operation.addTag old.id t)
            ++ (old.tags.filter (fun t => !new.tags.contains t)).map
              (fun t => Operation.removeTag old.id t))).length = 0 := by
      by_cases hc : hsetEq old.tags new.tags = true
      · rw [if_pos hc]
        rfl
      · rw [if_neg hc]
        rw [List.filter_append, List.filter_map, List.filter_map]
        rw [show ((fun op =>
            match op with
            | Operation.addAnnot u en de => u == old.id && en == e && de == d
            | _ => false) ∘ fun t => Operation.addTag old.id t) =
            fun _ => false from funext fun _ => rfl]
        rw [show ((fun op =>
            match op with
            | Operation.addAnnot u en de => u == old.id && en == e && de == d
            | _ => false) ∘ fun t => Operation.removeTag old.id t) =
            fun _ => false from funext fun _ => rfl]
        simp [List.filter_false]
    have hdeps :
        (List.filter (fun op =>
          match op with
          | Operation.addAnnot u en de => u == old.id && en == e && de == d
          | _ => false)
          (if hsetEq old.depends new.depends then []
           else
            (new.depends.filter (fun x => !old.depends.contains x)).map
              (fun x => Operation.addDependency old.id x)
            ++ (old.depends.filter (fun x => !new.depends.contains x)).map
              (fun x => Operation.removeDependency old.id x))).length = 0 := by
      by_cases hc : hsetEq old.depends new.depends = true
      · rw [if_pos hc]
        rfl
      · rw [if_neg hc]
        rw [List.filter_append, List.filter_map, List.filter_map]
        rw [show ((fun op =>
            match op with
            | Operation.addAnnot u en de => u == old.id && en == e && de == d
            | _ => false) ∘ fun x => Operation.addDependency old.id x) =
            fun _ => false from funext fun _ => rfl]
        rw [show ((fun op =>
            match op with
            | Operation.addAnnot u en de => u == old.id && en == e && de == d
            | _ => false) ∘ fun x => Operation.removeDependency old.id x) =
            fun _ => false from funext fun _ => rfl]
        simp [List.filter_false]
    simp only [hupd, htags, hdeps, Nat.zero_add, Nat.add_zero]
    -- the annotation block itself
    by_cases heq : old.annots = new.annots
    · rw [if_pos heq]
      simp only [List.filter_nil, List.length_nil]
      by_cases hpair : hasAnnPair old.annots e d = true
      · rw [if_pos hpair]
      · rw [if_neg hpair]
        symm
        rw [List.length_eq_zero, List.filter_eq_nil_iff]
        intro a ha hp
        exact hpair (by
          simp only [hasAnnPair, List.any_eq_true]
          exact ⟨a, heq ▸ ha, hp⟩)
    · rw [if_neg heq]
      rw [filter_annot_map old.id e d]
      rw [List.length_map, List.filter_filter]
      by_cases hpair : hasAnnPair old.annots e d = true
      · rw [if_pos hpair]
        rw [List.length_eq_zero, List.filter_eq_nil_iff]
        intro a _ hp
        rw [Bool.and_eq_true] at hp
        obtain ⟨hpe, hun⟩ := hp
        rw [Bool.and_eq_true, beq_iff_eq, beq_iff_eq] at hpe
        simp only [hasAnnPair] at hpair
        rw [hpe.1, hpe.2, hpair] at hun
        simp at hun
      · rw [if_neg hpair]
        congr 1
        apply List.filter_congr
        intro a _
        by_cases hpe : (a.entry == e && a.description == d) = true
        · rw [hpe, Bool.true_and]
          rw [Bool.and_eq_true, beq_iff_eq, beq_iff_eq] at hpe
          rw [hpe.1, hpe.2]
          have hfalse : old.annots.any
              (fun b => b.entry == e && b.description == d) = false := by
            simp only [hasAnnPair] at hpair
            simpa using hpair
          simp [hfalse]
        · have hf : (a.entry == e && a.description == d) = false := by
            simpa using hpe
          rw [hf, Bool.false_and]
  · intro op hop
    simp only [computeUpdateOps, List.mem_append] at hop
    rcases hop with ((((h | h) | h) | h) | h) | h
    · rcases mem_of_mem_ite h with h | h
      · rw [List.mem_singleton] at h
        subst h
        rfl
      · simp at h
    · rcases mem_of_mem_ite h with h | h
      · rw [List.mem_singleton] at h
        subst h
        rfl
      · simp at h
    · rcases mem_of_mem_ite h with h | h
      · simp at h
      · rw [List.mem_append] at h
        rcases h with h | h <;>
          (rw [List.mem_map] at h
           obtain ⟨t, -, rfl⟩ := h
           rfl)
    · rcases mem_of_mem_ite h with h | h
      · rw [List.mem_singleton] at h
        subst h
        rfl
      · simp at h
    · rcases mem_of_mem_ite h with h | h
      · simp at h
      · rw [List.mem_append] at h
        rcases h with h | h <;>
          (rw [List.mem_map] at h
           obtain ⟨t, -, rfl⟩ := h
           rfl)
    · rcases mem_of_mem_ite h with h | h
      · simp at h
      · rw [List.mem_map] at h
        obtain ⟨a, -, rfl⟩ := h
        rfl

/-- Witness for C6 at a concrete pair of tasks where one annotation was
appended. -/
theorem compute_update_ops_annots_witness :
    (∀ e d, countAddAnnot (computeUpdateOps oldAnn6 newAnn6) oldAnn6.id e d =
      if hasAnnPair oldAnn6.annots e d then 0
      else (newAnn6.annots.filter
        (fun a => a.entry == e && a.description == d)).length) ∧
    (∀ op ∈ computeUpdateOps oldAnn6 newAnn6, isFieldDiffOp op = true) :=
  compute_update_ops_annots oldAnn6 newAnn6

/-! ### Claim C7 — UDA type inference order -/

theorem udas_lookup (td : FieldMap) (k v : String)
    (hmem : (k, v) ∈ td) (hnodup : (td.map Prod.fst).Nodup)
    (hstd : k ∉ standardFields) :
    (td.filterMap (fun kv =>
      if standardFields.contains kv.1 then none
      else some (kv.1, inferUda kv.2))).find? (fun kv => kv.1 == k) =
      some (k, inferUda v) := by
  induction td with
  | nil => simp at hmem
  | cons hd tl ih =>
    obtain ⟨k1, v1⟩ := hd
    have hnd' : (tl.map Prod.fst).Nodup := by
      simpa using (List.nodup_cons.mp (by simpa using hnodup)).2
    by_cases hh : standardFields.contains k1 = true
    · rcases List.mem_cons.mp hmem with he | hm
      · exfalso
        apply hstd
        have hk1 : k = k1 := congrArg Prod.fst he
        rw [hk1]
        simpa using hh
      · simp only [List.filterMap_cons, hh, if_pos]
        exact ih hm hnd'
    · have hh' : standardFields.contains k1 = false := by simpa using hh
      simp only [List.filterMap_cons, hh', Bool.false_eq_true, if_false]
      by_cases hk : (k1 == k) = true
      · have hk1 : k1 = k := by simpa using hk
        rw [List.find?_cons_of_pos _ (by simpa using hk)]
        rcases List.mem_cons.mp hmem with he | hm
        · obtain ⟨he1, he2⟩ := Prod.mk.injEq .. ▸ he.symm
          rw [hk1, he2]
        · exfalso
          have : k ∈ tl.map Prod.fst := List.mem_map.mpr ⟨(k, v), hm, rfl⟩
          have hnotin : k1 ∉ tl.map Prod.fst :=
            (List.nodup_cons.mp (by simpa using hnodup)).1
          exact hnotin (hk1 ▸ this)
      · rw [List.find?_cons_of_neg _ (by simpa using hk)]
        rcases List.mem_cons.mp hmem with he | hm
        · exfalso
          have hk1 : k = k1 := congrArg Prod.fst he
          exact hk (by simp [hk1])
        · exact ih hm hnd'

/-- C7: when `ReadTask` reconstructs a task, every stored field whose
name is not a recognized standard field lands in the UDA map, its type
inferred by ordered probing — numeric parse first, then RFC 3339
date/time, else string. -/
theorem read_task_uda_inference (id : Uuid) (td : FieldMap) (now : DateTime)
    (k v : String) (hmem : (k, v) ∈ td)
    (hnodup : (td.map Prod.fst).Nodup) (hstd : k ∉ standardFields) :
    (reconstructTask id td now).udas.find? (fun kv => kv.1 == k) =
      some (k, inferUda v) ∧
    inferUda v = (if parsesF64 v then UdaValue.number v
      else
        match parseRfc3339 v with
        | some dt => UdaValue.date dt
        | none => UdaValue.str v) := by
  refine ⟨?_, rfl⟩
  have hudas : (reconstructTask id td now).udas = td.filterMap (fun kv =>
      if standardFields.contains kv.1 then none
      else some (kv.1, inferUda kv.2)) := rfl
  rw [hudas]
  exact udas_lookup td k v hmem hnodup hstd

/-- Witness for C7 at a concrete field map holding a numeric-looking
unrecognized field. -/
theorem read_task_uda_inference_witness :
    (("estimate", "3.5") ∈ tdUda7 ∧ (tdUda7.map Prod.fst).Nodup ∧
      "estimate" ∉ standardFields) ∧
    ((reconstructTask 1 tdUda7 0).udas.find? (fun kv => kv.1 == "estimate") =
      some ("estimate", inferUda "3.5") ∧
     inferUda "3.5" = (if parsesF64 "3.5" then UdaValue.number "3.5"
      else
        match parseRfc3339 "3.5" with
        | some dt => UdaValue.date dt
        | none => UdaValue.str "3.5")) :=
  ⟨⟨by decide, by decide, by decide⟩,
   read_task_uda_inference 1 tdUda7 0 "estimate" "3.5"
     (by decide) (by decide) (by decide)⟩

end TWLib
